import Mathlib

/-
Verification of the unresolved style model of the parley styling layer
(src/parley/src/style/mod.rs), as a shallow embedding in Lean 4.

Rust f32 fields are modelled by the type F32 below: either NaN or an exact
rational value.  The source code only ever stores literal values into these
fields (16.0, 1.2, 0.0) and never performs arithmetic on them, so exact
rationals are a faithful carrier; F32.beq models Rust f32 PartialEq, under
which NaN is unequal to itself.

Types owned by the sibling font/styleset modules (not part of the provided
source) are modelled from the specification, as marked on each definition.
-/

namespace Parley

/-- Model of a 32-bit float value as stored by the styling layer: either NaN
or an exact rational value.  The source stores only literal values and never
computes with them. -/
inductive F32 where
  | nan : F32
  | val : ℚ → F32
deriving DecidableEq, Repr

/-- Rust PartialEq on f32: NaN compares unequal to everything, including
itself; numeric values compare by value. -/
def F32.beq : F32 → F32 → Bool
  | F32.val a, F32.val b => decide (a = b)
  | _, _ => false

/-- Whether this float value is NaN. -/
def F32.isNan : F32 → Bool
  | F32.nan => true
  | F32.val _ => false

/-- Modelled from the spec: an enumerated generic fallback category
(sans-serif-like, serif-like, monospace-like); the exact enumeration is owned
by the font-descriptor component, which is not in the provided source. -/
inductive GenericFamily where
  | sansSerif : GenericFamily
  | serif : GenericFamily
  | monospace : GenericFamily
deriving DecidableEq, Repr

/-- Modelled from the spec: a single named or generic font family reference
(font-descriptor component, not in the provided source). -/
inductive FontFamily where
  | named : String → FontFamily
  | generic : GenericFamily → FontFamily
deriving DecidableEq, Repr

/-- Modelled from the spec: a font stack is either a parsed/textual source
string naming one or more comma-separated families, or an ordered sequence of
individual family references (font-descriptor component, not in the provided
source). -/
inductive FontStack where
  | source : String → FontStack
  | list : List FontFamily → FontStack
deriving DecidableEq, Repr

/-- Modelled from the spec: an individual OpenType variation-axis setting,
a tag with a numeric (float) value (font-descriptor component, not in the
provided source). -/
structure FontVariation where
  tag : Nat
  value : F32
deriving DecidableEq, Repr

/-- Modelled from the spec: an individual OpenType feature setting, a tag
with an integral value (font-descriptor component, not in the provided
source). -/
structure FontFeature where
  tag : Nat
  value : Nat
deriving DecidableEq, Repr

/-- Modelled from the spec: a generic container holding either a parsed
textual source of settings or an explicit ordered list of individual settings
(font-descriptor component, not in the provided source). -/
inductive FontSettings (T : Type) where
  | source : String → FontSettings T
  | list : List T → FontSettings T
deriving DecidableEq, Repr

/-- Modelled from the spec: the font width selection axis, an independently
defaulted scalar-like value type (font-descriptor component, not in the
provided source). -/
structure FontWidth where
  value : F32
deriving DecidableEq, Repr

/-- The default font width (the type's own default: the normal width). -/
def FontWidth.default : FontWidth := FontWidth.mk (F32.val 1)

/-- Modelled from the spec: the font slant/style selection axis, an
independently defaulted value type (font-descriptor component, not in the
provided source). -/
inductive FontStyle where
  | normal : FontStyle
  | italic : FontStyle
  | oblique : Option F32 → FontStyle
deriving DecidableEq, Repr

/-- The default font style (the type's own default: normal). -/
def FontStyle.default : FontStyle := FontStyle.normal

/-- Modelled from the spec: the font weight selection axis, an independently
defaulted scalar-like value type (font-descriptor component, not in the
provided source). -/
structure FontWeight where
  value : F32
deriving DecidableEq, Repr

/-- The default font weight (the type's own default: the normal weight). -/
def FontWeight.default : FontWeight := FontWeight.mk (F32.val 400)

/-- Modelled from the spec: an externally defined enumerated classification
of how aggressively a script/locale permits mid-word breaking, treated as an
opaque defaulted value type here (external shaping dependency, not in the
provided source). -/
inductive WordBreakStrength where
  | normal : WordBreakStrength
  | breakAll : WordBreakStrength
  | keepAll : WordBreakStrength
deriving DecidableEq, Repr

/-- The default word-break strength (the external type's own default). -/
def WordBreakStrength.default : WordBreakStrength := WordBreakStrength.normal

/-- Control over "emergency" line-breaking (source: `OverflowWrap`). -/
inductive OverflowWrap where
  | normal : OverflowWrap
  | anywhere : OverflowWrap
  | breakWord : OverflowWrap
deriving DecidableEq, Repr

/-- The default overflow-wrap policy (source: `#[default]` on `Normal`). -/
def OverflowWrap.default : OverflowWrap := OverflowWrap.normal

/-- Properties that define a style (source: `StyleProperty<'a, B: Brush>`).
The brush capability is an arbitrary type parameter `B`. -/
inductive StyleProperty (B : Type) where
  | fontStack : FontStack → StyleProperty B
  | fontSize : F32 → StyleProperty B
  | fontWidth : FontWidth → StyleProperty B
  | fontStyle : FontStyle → StyleProperty B
  | fontWeight : FontWeight → StyleProperty B
  | fontVariations : FontSettings FontVariation → StyleProperty B
  | fontFeatures : FontSettings FontFeature → StyleProperty B
  | locale : Option String → StyleProperty B
  | brush : B → StyleProperty B
  | underline : Bool → StyleProperty B
  | underlineOffset : Option F32 → StyleProperty B
  | underlineSize : Option F32 → StyleProperty B
  | underlineBrush : Option B → StyleProperty B
  | strikethrough : Bool → StyleProperty B
  | strikethroughOffset : Option F32 → StyleProperty B
  | strikethroughSize : Option F32 → StyleProperty B
  | strikethroughBrush : Option B → StyleProperty B
  | lineHeight : F32 → StyleProperty B
  | wordSpacing : F32 → StyleProperty B
  | letterSpacing : F32 → StyleProperty B
  | wordBreak : WordBreakStrength → StyleProperty B
  | overflowWrap : OverflowWrap → StyleProperty B
deriving DecidableEq, Repr

/-- Unresolved styles (source: `TextStyle<'a, B: Brush>`), one field per
`StyleProperty` variant. -/
structure TextStyle (B : Type) where
  font_stack : FontStack
  font_size : F32
  font_width : FontWidth
  font_style : FontStyle
  font_weight : FontWeight
  font_variations : FontSettings FontVariation
  font_features : FontSettings FontFeature
  locale : Option String
  brush : B
  has_underline : Bool
  underline_offset : Option F32
  underline_size : Option F32
  underline_brush : Option B
  has_strikethrough : Bool
  strikethrough_offset : Option F32
  strikethrough_size : Option F32
  strikethrough_brush : Option B
  line_height : F32
  word_spacing : F32
  letter_spacing : F32
  word_break : WordBreakStrength
  overflow_wrap : OverflowWrap
deriving DecidableEq, Repr

/-- The default `TextStyle` (source: `impl<B: Brush> Default for TextStyle`).
The brush default is the `Inhabited` default of the brush parameter. -/
def TextStyle.default (B : Type) [Inhabited B] : TextStyle B where
  font_stack := FontStack.source "sans-serif"
  font_size := F32.val 16
  font_width := FontWidth.default
  font_style := FontStyle.default
  font_weight := FontWeight.default
  font_variations := FontSettings.list []
  font_features := FontSettings.list []
  locale := none
  brush := Inhabited.default
  has_underline := false
  underline_offset := none
  underline_size := none
  underline_brush := none
  has_strikethrough := false
  strikethrough_offset := none
  strikethrough_size := none
  strikethrough_brush := none
  line_height := F32.val (6 / 5)
  word_spacing := F32.val 0
  letter_spacing := F32.val 0
  word_break := WordBreakStrength.default
  overflow_wrap := OverflowWrap.default

/-- Modelled from the spec: the one implicit operation of the Style Property
Model, "set the field matching this variant's tag to this variant's payload"
(spec §4.1; the application code itself is not in the provided source). -/
def TextStyle.applyProperty {B : Type} (s : TextStyle B) : StyleProperty B → TextStyle B
  | StyleProperty.fontStack v => { s with font_stack := v }
  | StyleProperty.fontSize v => { s with font_size := v }
  | StyleProperty.fontWidth v => { s with font_width := v }
  | StyleProperty.fontStyle v => { s with font_style := v }
  | StyleProperty.fontWeight v => { s with font_weight := v }
  | StyleProperty.fontVariations v => { s with font_variations := v }
  | StyleProperty.fontFeatures v => { s with font_features := v }
  | StyleProperty.locale v => { s with locale := v }
  | StyleProperty.brush v => { s with brush := v }
  | StyleProperty.underline v => { s with has_underline := v }
  | StyleProperty.underlineOffset v => { s with underline_offset := v }
  | StyleProperty.underlineSize v => { s with underline_size := v }
  | StyleProperty.underlineBrush v => { s with underline_brush := v }
  | StyleProperty.strikethrough v => { s with has_strikethrough := v }
  | StyleProperty.strikethroughOffset v => { s with strikethrough_offset := v }
  | StyleProperty.strikethroughSize v => { s with strikethrough_size := v }
  | StyleProperty.strikethroughBrush v => { s with strikethrough_brush := v }
  | StyleProperty.lineHeight v => { s with line_height := v }
  | StyleProperty.wordSpacing v => { s with word_spacing := v }
  | StyleProperty.letterSpacing v => { s with letter_spacing := v }
  | StyleProperty.wordBreak v => { s with word_break := v }
  | StyleProperty.overflowWrap v => { s with overflow_wrap := v }

/-- The variant tag (Rust discriminant) of a style property, numbering the
variants in declaration order, which is also the declaration order of the
corresponding `TextStyle` fields. -/
def StyleProperty.tag {B : Type} : StyleProperty B → Nat
  | StyleProperty.fontStack _ => 0
  | StyleProperty.fontSize _ => 1
  | StyleProperty.fontWidth _ => 2
  | StyleProperty.fontStyle _ => 3
  | StyleProperty.fontWeight _ => 4
  | StyleProperty.fontVariations _ => 5
  | StyleProperty.fontFeatures _ => 6
  | StyleProperty.locale _ => 7
  | StyleProperty.brush _ => 8
  | StyleProperty.underline _ => 9
  | StyleProperty.underlineOffset _ => 10
  | StyleProperty.underlineSize _ => 11
  | StyleProperty.underlineBrush _ => 12
  | StyleProperty.strikethrough _ => 13
  | StyleProperty.strikethroughOffset _ => 14
  | StyleProperty.strikethroughSize _ => 15
  | StyleProperty.strikethroughBrush _ => 16
  | StyleProperty.lineHeight _ => 17
  | StyleProperty.wordSpacing _ => 18
  | StyleProperty.letterSpacing _ => 19
  | StyleProperty.wordBreak _ => 20
  | StyleProperty.overflowWrap _ => 21

/-- The field of `t` matching the variant of `p` holds exactly the payload of
`p` (the positive half of the single-field-of-effect property). -/
def payloadSet {B : Type} : StyleProperty B → TextStyle B → Prop
  | StyleProperty.fontStack v, t => t.font_stack = v
  | StyleProperty.fontSize v, t => t.font_size = v
  | StyleProperty.fontWidth v, t => t.font_width = v
  | StyleProperty.fontStyle v, t => t.font_style = v
  | StyleProperty.fontWeight v, t => t.font_weight = v
  | StyleProperty.fontVariations v, t => t.font_variations = v
  | StyleProperty.fontFeatures v, t => t.font_features = v
  | StyleProperty.locale v, t => t.locale = v
  | StyleProperty.brush v, t => t.brush = v
  | StyleProperty.underline v, t => t.has_underline = v
  | StyleProperty.underlineOffset v, t => t.underline_offset = v
  | StyleProperty.underlineSize v, t => t.underline_size = v
  | StyleProperty.underlineBrush v, t => t.underline_brush = v
  | StyleProperty.strikethrough v, t => t.has_strikethrough = v
  | StyleProperty.strikethroughOffset v, t => t.strikethrough_offset = v
  | StyleProperty.strikethroughSize v, t => t.strikethrough_size = v
  | StyleProperty.strikethroughBrush v, t => t.strikethrough_brush = v
  | StyleProperty.lineHeight v, t => t.line_height = v
  | StyleProperty.wordSpacing v, t => t.word_spacing = v
  | StyleProperty.letterSpacing v, t => t.letter_spacing = v
  | StyleProperty.wordBreak v, t => t.word_break = v
  | StyleProperty.overflowWrap v, t => t.overflow_wrap = v

/-- Styles `s` and `t` agree on every field other than the field numbered
`i` (field numbering as in `StyleProperty.tag`).  Each conjunct is "this is
the excepted field, or the two styles agree on it". -/
def agreesExcept {B : Type} (i : Nat) (s t : TextStyle B) : Prop :=
  (i = 0 ∨ t.font_stack = s.font_stack) ∧
  (i = 1 ∨ t.font_size = s.font_size) ∧
  (i = 2 ∨ t.font_width = s.font_width) ∧
  (i = 3 ∨ t.font_style = s.font_style) ∧
  (i = 4 ∨ t.font_weight = s.font_weight) ∧
  (i = 5 ∨ t.font_variations = s.font_variations) ∧
  (i = 6 ∨ t.font_features = s.font_features) ∧
  (i = 7 ∨ t.locale = s.locale) ∧
  (i = 8 ∨ t.brush = s.brush) ∧
  (i = 9 ∨ t.has_underline = s.has_underline) ∧
  (i = 10 ∨ t.underline_offset = s.underline_offset) ∧
  (i = 11 ∨ t.underline_size = s.underline_size) ∧
  (i = 12 ∨ t.underline_brush = s.underline_brush) ∧
  (i = 13 ∨ t.has_strikethrough = s.has_strikethrough) ∧
  (i = 14 ∨ t.strikethrough_offset = s.strikethrough_offset) ∧
  (i = 15 ∨ t.strikethrough_size = s.strikethrough_size) ∧
  (i = 16 ∨ t.strikethrough_brush = s.strikethrough_brush) ∧
  (i = 17 ∨ t.line_height = s.line_height) ∧
  (i = 18 ∨ t.word_spacing = s.word_spacing) ∧
  (i = 19 ∨ t.letter_spacing = s.letter_spacing) ∧
  (i = 20 ∨ t.word_break = s.word_break) ∧
  (i = 21 ∨ t.overflow_wrap = s.overflow_wrap)

/-- Applying a list of style properties in order (left fold of
`TextStyle.applyProperty`). -/
def applyList {B : Type} (s : TextStyle B) (l : List (StyleProperty B)) : TextStyle B :=
  l.foldl TextStyle.applyProperty s

/-- Conversion of a font stack into a style property (source:
`impl From<FontStack> for StyleProperty`): wraps it as the `FontStack`
variant. -/
def stylePropertyOfFontStack {B : Type} (fs : FontStack) : StyleProperty B :=
  StyleProperty.fontStack fs

/-- Modelled from the spec: building a font stack from an ordered sequence of
family references preserves their order (the slice-to-stack conversion lives
in the font-descriptor component, not in the provided source). -/
def fontStackOfFamilies (fams : List FontFamily) : FontStack :=
  FontStack.list fams

/-- Modelled from the spec: building a single-entry stack from one family
reference (the family-to-stack conversion lives in the font-descriptor
component, not in the provided source). -/
def fontStackOfFamily (f : FontFamily) : FontStack :=
  FontStack.list [f]

/-- Modelled from the spec: building a stack representing a generic fallback
family (the conversion lives in the font-descriptor component, not in the
provided source). -/
def fontStackOfGeneric (g : GenericFamily) : FontStack :=
  FontStack.list [FontFamily.generic g]

/-- Conversion of a family-reference slice into a style property (source:
`impl From<&[FontFamily]> for StyleProperty`): builds a font stack from the
ordered sequence, then wraps as `FontStack`. -/
def stylePropertyOfFamilies {B : Type} (fams : List FontFamily) : StyleProperty B :=
  StyleProperty.fontStack (fontStackOfFamilies fams)

/-- Conversion of a single family reference into a style property (source:
`impl From<FontFamily> for StyleProperty`): builds a single-entry stack, then
wraps as `FontStack`. -/
def stylePropertyOfFamily {B : Type} (f : FontFamily) : StyleProperty B :=
  StyleProperty.fontStack (fontStackOfFamily f)

/-- Conversion of a generic family into a style property (source:
`impl From<GenericFamily> for StyleProperty`): builds a stack representing
that generic fallback, then wraps as `FontStack`. -/
def stylePropertyOfGeneric {B : Type} (g : GenericFamily) : StyleProperty B :=
  StyleProperty.fontStack (fontStackOfGeneric g)

/-- Extract the `FontStack` payload of a style property, when it is the
`FontStack` variant. -/
def StyleProperty.asFontStack {B : Type} : StyleProperty B → Option FontStack
  | StyleProperty.fontStack fs => some fs
  | _ => none

/-- Extract the explicit ordered family list of a stack, when it is the list
form. -/
def FontStack.families : FontStack → Option (List FontFamily)
  | FontStack.list fams => some fams
  | FontStack.source _ => none

/-- Modelled from the spec: a Style Set is a named registry mapping
identifiers to styles; lookup signals absence distinctly rather than
defaulting silently, and registering a name twice replaces the prior style
(the styleset module is not in the provided source). -/
abbrev StyleSet (B : Type) : Type :=
  List (String × TextStyle B)

/-- The empty style registry. -/
def StyleSet.empty (B : Type) : StyleSet B := []

/-- Register or replace a style under a name (total). -/
def StyleSet.insert {B : Type} (ss : StyleSet B) (name : String) (st : TextStyle B) : StyleSet B :=
  (name, st) :: List.filter (fun e => !(e.1 == name)) ss

/-- Look up a style by name; absence is an inspectable `none` outcome. -/
def StyleSet.lookup {B : Type} : StyleSet B → String → Option (TextStyle B)
  | [], _ => none
  | (n, st) :: rest, name => if n = name then some st else StyleSet.lookup rest name

/-- The names registered in a style set. -/
def StyleSet.names {B : Type} (ss : StyleSet B) : List String :=
  ss.map Prod.fst

/-- Rust PartialEq on `Option`, componentwise on the payload comparison. -/
def optionBeq {α : Type} (f : α → α → Bool) : Option α → Option α → Bool
  | none, none => true
  | some a, some b => f a b
  | _, _ => false

/-- Rust PartialEq on slices/lists, componentwise and length-sensitive. -/
def listBeq {α : Type} (f : α → α → Bool) : List α → List α → Bool
  | [], [] => true
  | a :: as_, b :: bs => f a b && listBeq f as_ bs
  | _, _ => false

/-- Rust PartialEq on a font variation: tag equality and float value
comparison (NaN-sensitive). -/
def FontVariation.beq (a b : FontVariation) : Bool :=
  decide (a.tag = b.tag) && F32.beq a.value b.value

/-- Rust PartialEq on a font feature: tag and integral value equality. -/
def FontFeature.beq (a b : FontFeature) : Bool :=
  decide (a.tag = b.tag) && decide (a.value = b.value)

/-- Rust PartialEq on font settings: same representation and componentwise
payload comparison. -/
def fontSettingsBeq {T : Type} (f : T → T → Bool) : FontSettings T → FontSettings T → Bool
  | FontSettings.source a, FontSettings.source b => decide (a = b)
  | FontSettings.list a, FontSettings.list b => listBeq f a b
  | _, _ => false

/-- Rust PartialEq on font stacks (no float components, so structural
decidable equality). -/
def FontStack.beq (a b : FontStack) : Bool :=
  decide (a = b)

/-- Rust PartialEq on font width (NaN-sensitive on the scalar value). -/
def FontWidth.beq (a b : FontWidth) : Bool :=
  F32.beq a.value b.value

/-- Rust PartialEq on font weight (NaN-sensitive on the scalar value). -/
def FontWeight.beq (a b : FontWeight) : Bool :=
  F32.beq a.value b.value

/-- Rust PartialEq on font style (NaN-sensitive on the oblique angle). -/
def FontStyle.beq : FontStyle → FontStyle → Bool
  | FontStyle.normal, FontStyle.normal => true
  | FontStyle.italic, FontStyle.italic => true
  | FontStyle.oblique a, FontStyle.oblique b => optionBeq F32.beq a b
  | _, _ => false

/-- The derived Rust `Clone` of a style property: componentwise clone of the
payload under the same variant tag.  All modelled payload components are
plain values, so the componentwise clone returns the components themselves. -/
def StyleProperty.clone {B : Type} : StyleProperty B → StyleProperty B
  | StyleProperty.fontStack v => StyleProperty.fontStack v
  | StyleProperty.fontSize v => StyleProperty.fontSize v
  | StyleProperty.fontWidth v => StyleProperty.fontWidth v
  | StyleProperty.fontStyle v => StyleProperty.fontStyle v
  | StyleProperty.fontWeight v => StyleProperty.fontWeight v
  | StyleProperty.fontVariations v => StyleProperty.fontVariations v
  | StyleProperty.fontFeatures v => StyleProperty.fontFeatures v
  | StyleProperty.locale v => StyleProperty.locale v
  | StyleProperty.brush v => StyleProperty.brush v
  | StyleProperty.underline v => StyleProperty.underline v
  | StyleProperty.underlineOffset v => StyleProperty.underlineOffset v
  | StyleProperty.underlineSize v => StyleProperty.underlineSize v
  | StyleProperty.underlineBrush v => StyleProperty.underlineBrush v
  | StyleProperty.strikethrough v => StyleProperty.strikethrough v
  | StyleProperty.strikethroughOffset v => StyleProperty.strikethroughOffset v
  | StyleProperty.strikethroughSize v => StyleProperty.strikethroughSize v
  | StyleProperty.strikethroughBrush v => StyleProperty.strikethroughBrush v
  | StyleProperty.lineHeight v => StyleProperty.lineHeight v
  | StyleProperty.wordSpacing v => StyleProperty.wordSpacing v
  | StyleProperty.letterSpacing v => StyleProperty.letterSpacing v
  | StyleProperty.wordBreak v => StyleProperty.wordBreak v
  | StyleProperty.overflowWrap v => StyleProperty.overflowWrap v

/-- Componentwise payload comparison for two style properties carrying the
same variant tag; `false` on a tag mismatch (that branch is unreachable in
the derived PartialEq, which checks discriminants first).  Floats compare via
Rust f32 PartialEq; the brush comparison is the supplied `beqB`. -/
def StyleProperty.payloadBeq {B : Type} (beqB : B → B → Bool) :
    StyleProperty B → StyleProperty B → Bool
  | StyleProperty.fontStack a, StyleProperty.fontStack b => FontStack.beq a b
  | StyleProperty.fontSize a, StyleProperty.fontSize b => F32.beq a b
  | StyleProperty.fontWidth a, StyleProperty.fontWidth b => FontWidth.beq a b
  | StyleProperty.fontStyle a, StyleProperty.fontStyle b => FontStyle.beq a b
  | StyleProperty.fontWeight a, StyleProperty.fontWeight b => FontWeight.beq a b
  | StyleProperty.fontVariations a, StyleProperty.fontVariations b =>
      fontSettingsBeq FontVariation.beq a b
  | StyleProperty.fontFeatures a, StyleProperty.fontFeatures b =>
      fontSettingsBeq FontFeature.beq a b
  | StyleProperty.locale a, StyleProperty.locale b => optionBeq (fun x y => decide (x = y)) a b
  | StyleProperty.brush a, StyleProperty.brush b => beqB a b
  | StyleProperty.underline a, StyleProperty.underline b => a == b
  | StyleProperty.underlineOffset a, StyleProperty.underlineOffset b => optionBeq F32.beq a b
  | StyleProperty.underlineSize a, StyleProperty.underlineSize b => optionBeq F32.beq a b
  | StyleProperty.underlineBrush a, StyleProperty.underlineBrush b => optionBeq beqB a b
  | StyleProperty.strikethrough a, StyleProperty.strikethrough b => a == b
  | StyleProperty.strikethroughOffset a, StyleProperty.strikethroughOffset b =>
      optionBeq F32.beq a b
  | StyleProperty.strikethroughSize a, StyleProperty.strikethroughSize b => optionBeq F32.beq a b
  | StyleProperty.strikethroughBrush a, StyleProperty.strikethroughBrush b => optionBeq beqB a b
  | StyleProperty.lineHeight a, StyleProperty.lineHeight b => F32.beq a b
  | StyleProperty.wordSpacing a, StyleProperty.wordSpacing b => F32.beq a b
  | StyleProperty.letterSpacing a, StyleProperty.letterSpacing b => F32.beq a b
  | StyleProperty.wordBreak a, StyleProperty.wordBreak b => decide (a = b)
  | StyleProperty.overflowWrap a, StyleProperty.overflowWrap b => decide (a = b)
  | _, _ => false

/-- The derived Rust PartialEq of a style property: equal discriminants and
componentwise-equal payloads. -/
def StyleProperty.beq {B : Type} (beqB : B → B → Bool) (x y : StyleProperty B) : Bool :=
  decide (x.tag = y.tag) && StyleProperty.payloadBeq beqB x y

/-- Whether an optional float is absent or a non-NaN value. -/
def optionNanFree : Option F32 → Bool
  | none => true
  | some a => !a.isNan

/-- Whether no float payload component of this style property is NaN.  The
NaN-carrying positions are the direct f32 payloads, the optional f32 payloads,
the width/weight scalars, the oblique style angle, and the values of listed
font variations. -/
def StyleProperty.nanFree {B : Type} : StyleProperty B → Bool
  | StyleProperty.fontSize v => !v.isNan
  | StyleProperty.fontWidth w => !w.value.isNan
  | StyleProperty.fontStyle st =>
      match st with
      | FontStyle.oblique (some a) => !a.isNan
      | _ => true
  | StyleProperty.fontWeight w => !w.value.isNan
  | StyleProperty.fontVariations fs =>
      match fs with
      | FontSettings.list l => l.all (fun v => !v.value.isNan)
      | FontSettings.source _ => true
  | StyleProperty.underlineOffset o => optionNanFree o
  | StyleProperty.underlineSize o => optionNanFree o
  | StyleProperty.strikethroughOffset o => optionNanFree o
  | StyleProperty.strikethroughSize o => optionNanFree o
  | StyleProperty.lineHeight v => !v.isNan
  | StyleProperty.wordSpacing v => !v.isNan
  | StyleProperty.letterSpacing v => !v.isNan
  | _ => true

/-- The derived Rust PartialEq of a `TextStyle`: componentwise over all 22
fields, floats via f32 PartialEq, brushes via the supplied `beqB`. -/
def TextStyle.beq {B : Type} (beqB : B → B → Bool) (a b : TextStyle B) : Bool :=
  FontStack.beq a.font_stack b.font_stack &&
  F32.beq a.font_size b.font_size &&
  FontWidth.beq a.font_width b.font_width &&
  FontStyle.beq a.font_style b.font_style &&
  FontWeight.beq a.font_weight b.font_weight &&
  fontSettingsBeq FontVariation.beq a.font_variations b.font_variations &&
  fontSettingsBeq FontFeature.beq a.font_features b.font_features &&
  optionBeq (fun x y => decide (x = y)) a.locale b.locale &&
  beqB a.brush b.brush &&
  (a.has_underline == b.has_underline) &&
  optionBeq F32.beq a.underline_offset b.underline_offset &&
  optionBeq F32.beq a.underline_size b.underline_size &&
  optionBeq beqB a.underline_brush b.underline_brush &&
  (a.has_strikethrough == b.has_strikethrough) &&
  optionBeq F32.beq a.strikethrough_offset b.strikethrough_offset &&
  optionBeq F32.beq a.strikethrough_size b.strikethrough_size &&
  optionBeq beqB a.strikethrough_brush b.strikethrough_brush &&
  F32.beq a.line_height b.line_height &&
  F32.beq a.word_spacing b.word_spacing &&
  F32.beq a.letter_spacing b.letter_spacing &&
  decide (a.word_break = b.word_break) &&
  decide (a.overflow_wrap = b.overflow_wrap)

theorem F32.beq_refl {v : F32} (h : v.isNan = false) : F32.beq v v = true := by
cases v with
| nan => simp [F32.isNan] at h
| val q => simp [F32.beq]

theorem optionBeq_refl {α : Type} {f : α → α → Bool} {o : Option α}
    (h : ∀ a, o = some a → f a a = true) : optionBeq f o o = true := by
cases o with
| none => rfl
| some a => exact h a rfl

theorem listBeq_refl {α : Type} {f : α → α → Bool} {l : List α}
    (h : ∀ a ∈ l, f a a = true) : listBeq f l l = true := by
induction l with
| nil => rfl
| cons a t ih =>
    simp only [listBeq, Bool.and_eq_true]
    exact ⟨h a (by simp), ih (fun b hb => h b (by simp [hb]))⟩

/-- C1: Constructing the default TextStyle (for any Brush type) returns a
record with exactly these values: font stack is the textual source
"sans-serif", font size 16.0, width/style/weight each their type's own
default, empty explicit variation and feature lists, absent locale, the
Brush default, both decoration flags false, all decoration offset/size/brush
fields absent, line height 1.2, zero word and letter spacing, the default
word-break strength, and overflow-wrap Normal. -/
theorem default_textstyle_values (B : Type) [Inhabited B] :
    (TextStyle.default B).font_stack = FontStack.source "sans-serif" ∧
    (TextStyle.default B).font_size = F32.val 16 ∧
    (TextStyle.default B).font_width = FontWidth.default ∧
    (TextStyle.default B).font_style = FontStyle.default ∧
    (TextStyle.default B).font_weight = FontWeight.default ∧
    (TextStyle.default B).font_variations = FontSettings.list [] ∧
    (TextStyle.default B).font_features = FontSettings.list [] ∧
    (TextStyle.default B).locale = none ∧
    (TextStyle.default B).brush = (Inhabited.default : B) ∧
    (TextStyle.default B).has_underline = false ∧
    (TextStyle.default B).underline_offset = none ∧
    (TextStyle.default B).underline_size = none ∧
    (TextStyle.default B).underline_brush = none ∧
    (TextStyle.default B).has_strikethrough = false ∧
    (TextStyle.default B).strikethrough_offset = none ∧
    (TextStyle.default B).strikethrough_size = none ∧
    (TextStyle.default B).strikethrough_brush = none ∧
    (TextStyle.default B).line_height = F32.val (6 / 5) ∧
    (TextStyle.default B).word_spacing = F32.val 0 ∧
    (TextStyle.default B).letter_spacing = F32.val 0 ∧
    (TextStyle.default B).word_break = WordBreakStrength.default ∧
    (TextStyle.default B).overflow_wrap = OverflowWrap.normal :=
⟨rfl, rfl, rfl, rfl, rfl, rfl, rfl, rfl, rfl, rfl, rfl, rfl, rfl, rfl, rfl,
 rfl, rfl, rfl, rfl, rfl, rfl, rfl⟩

/-- C9: OverflowWrap has exactly the three variants Normal, Anywhere and
BreakWord; each variant equals itself and differs from the other two, and
the default value is Normal. -/
theorem overflowwrap_exactly_three_variants :
    (∀ w : OverflowWrap,
      w = OverflowWrap.normal ∨ w = OverflowWrap.anywhere ∨ w = OverflowWrap.breakWord) ∧
    OverflowWrap.normal = OverflowWrap.normal ∧
    OverflowWrap.anywhere = OverflowWrap.anywhere ∧
    OverflowWrap.breakWord = OverflowWrap.breakWord ∧
    OverflowWrap.normal ≠ OverflowWrap.anywhere ∧
    OverflowWrap.normal ≠ OverflowWrap.breakWord ∧
    OverflowWrap.anywhere ≠ OverflowWrap.breakWord ∧
    OverflowWrap.default = OverflowWrap.normal := by
refine ⟨fun w => ?_, rfl, rfl, rfl, by decide, by decide, by decide, rfl⟩
cases w
· exact Or.inl rfl
· exact Or.inr (Or.inl rfl)
· exact Or.inr (Or.inr rfl)

/-- C6: Converting an ordered sequence of family references (any length,
including zero) into a style property yields the FontStack variant whose
stack contains exactly those families in the same order; the conversion is a
total function. -/
theorem from_families_preserves_order (B : Type) (fams : List FontFamily) :
    (stylePropertyOfFamilies fams : StyleProperty B) =
      StyleProperty.fontStack (FontStack.list fams) ∧
    (stylePropertyOfFamilies fams : StyleProperty B).asFontStack =
      some (FontStack.list fams) ∧
    (fontStackOfFamilies fams).families = some fams :=
⟨rfl, rfl, rfl⟩

/-- C7: Converting a single font family reference into a style property
yields the FontStack variant whose stack is the single-entry ordered stack
holding exactly that family; the conversion is a total function. -/
theorem from_single_family_singleton_stack (B : Type) (f : FontFamily) :
    (stylePropertyOfFamily f : StyleProperty B) =
      StyleProperty.fontStack (FontStack.list [f]) ∧
    (stylePropertyOfFamily f : StyleProperty B).asFontStack =
      some (FontStack.list [f]) ∧
    (fontStackOfFamily f).families = some [f] :=
⟨rfl, rfl, rfl⟩

/-- C8: Converting a generic-family value into a style property yields the
FontStack variant whose stack represents exactly that generic family, and
that stack is unequal to any stack whose entries are all named families; the
conversion is a total function. -/
theorem from_generic_family_distinguishable (B : Type) (g : GenericFamily) :
    (stylePropertyOfGeneric g : StyleProperty B) =
      StyleProperty.fontStack (FontStack.list [FontFamily.generic g]) ∧
    ∀ fams : List FontFamily, (∀ f ∈ fams, ∃ s, f = FontFamily.named s) →
      fontStackOfGeneric g ≠ FontStack.list fams := by
refine ⟨rfl, fun fams h heq => ?_⟩
have hg : FontFamily.generic g ∈ fams := by
  have : FontStack.list [FontFamily.generic g] = FontStack.list fams := heq
  cases this
  simp
rcases h _ hg with ⟨s, hs⟩
cases hs

/-- C2: Applying any StyleProperty variant to any TextStyle sets exactly the
one field matching the variant's tag to the variant's payload and leaves
every other field unchanged. -/
theorem apply_property_single_field (B : Type) (s : TextStyle B) (p : StyleProperty B) :
    payloadSet p (s.applyProperty p) ∧ agreesExcept p.tag s (s.applyProperty p) := by
cases p <;>
  exact ⟨rfl, by simp [agreesExcept, TextStyle.applyProperty, StyleProperty.tag]⟩

theorem applyProperty_comm {B : Type} (s : TextStyle B) (p q : StyleProperty B)
    (h : p.tag ≠ q.tag) :
    (s.applyProperty p).applyProperty q = (s.applyProperty q).applyProperty p := by
cases p <;> cases q <;> first
| rfl
| exact absurd rfl h

theorem applyList_perm_eq {B : Type} {l₁ l₂ : List (StyleProperty B)} (hp : l₁.Perm l₂) :
    l₁.Pairwise (fun p q => StyleProperty.tag p ≠ StyleProperty.tag q) →
    ∀ s : TextStyle B, applyList s l₁ = applyList s l₂ := by
induction hp with
| nil => exact fun _ _ => rfl
| cons x _ ih =>
    intro hd s
    exact ih (List.pairwise_cons.mp hd).2 (s.applyProperty x)
| swap x y l =>
    intro hd s
    have hxy : StyleProperty.tag y ≠ StyleProperty.tag x :=
      (List.pairwise_cons.mp hd).1 x (by simp)
    show applyList ((s.applyProperty y).applyProperty x) l =
      applyList ((s.applyProperty x).applyProperty y) l
    rw [applyProperty_comm s y x hxy]
| trans h₁ _ ih₁ ih₂ =>
    intro hd s
    have hd₂ := (List.Perm.pairwise_iff (fun hab => Ne.symm hab) h₁).mp hd
    exact (ih₁ hd s).trans (ih₂ hd₂ s)

/-- C5: Two TextStyle values built from the same starting value by the same
set of property applications to distinct fields, applied in any two orders,
are equal: for property lists with pairwise-distinct variant tags, any
permutation of the list yields the same folded result. -/
theorem textstyle_mutation_commutes (B : Type) (s : TextStyle B)
    (l₁ l₂ : List (StyleProperty B))
    (hdistinct : l₁.Pairwise (fun p q => StyleProperty.tag p ≠ StyleProperty.tag q))
    (hperm : l₁.Perm l₂) :
    applyList s l₁ = applyList s l₂ :=
applyList_perm_eq hperm hdistinct s

/-- Witness for C5 at a concrete input: assigning font size then underline
equals assigning underline then font size, starting from the default style
with the unit brush. -/
theorem textstyle_mutation_commutes_witness :
    ([StyleProperty.fontSize (F32.val 10), StyleProperty.underline true] :
        List (StyleProperty Unit)).Pairwise
      (fun p q => StyleProperty.tag p ≠ StyleProperty.tag q) ∧
    ([StyleProperty.fontSize (F32.val 10), StyleProperty.underline true] :
        List (StyleProperty Unit)).Perm
      [StyleProperty.underline true, StyleProperty.fontSize (F32.val 10)] ∧
    applyList (TextStyle.default Unit)
        [StyleProperty.fontSize (F32.val 10), StyleProperty.underline true] =
      applyList (TextStyle.default Unit)
        [StyleProperty.underline true, StyleProperty.fontSize (F32.val 10)] :=
⟨by simp [StyleProperty.tag],
 List.Perm.swap (StyleProperty.underline true) (StyleProperty.fontSize (F32.val 10)) [],
 textstyle_mutation_commutes Unit (TextStyle.default Unit) _ _
   (by simp [StyleProperty.tag])
   (List.Perm.swap (StyleProperty.underline true) (StyleProperty.fontSize (F32.val 10)) [])⟩

/-- C4: A StyleSet lookup for a name that was never registered yields the
distinct, inspectable absence outcome `none`; it does not substitute a
default style nor any registered style's value. -/
theorem styleset_lookup_unregistered_absent (B : Type) (ss : StyleSet B) (name : String)
    (h : name ∉ ss.names) : ss.lookup name = none := by
induction ss with
| nil => rfl
| cons e rest ih =>
    have hne : e.1 ≠ name := by
      intro heq
      exact h (by simp [StyleSet.names, heq])
    have hrest : name ∉ StyleSet.names rest := by
      intro hmem
      exact h (by simp [StyleSet.names] at hmem ⊢; exact Or.inr hmem)
    calc StyleSet.lookup (e :: rest) name
        = StyleSet.lookup rest name := by
          cases e with
          | mk n st => simp [StyleSet.lookup, hne]
      _ = none := ih hrest

/-- Witness for C4 at a concrete input: after registering only "heading",
looking up the never-registered name "caption" yields `none`. -/
theorem styleset_lookup_unregistered_absent_witness :
    ("caption" ∉ StyleSet.names
        (StyleSet.insert (StyleSet.empty Unit) "heading" (TextStyle.default Unit))) ∧
    StyleSet.lookup
        (StyleSet.insert (StyleSet.empty Unit) "heading" (TextStyle.default Unit))
        "caption" = none :=
⟨by simp [StyleSet.names, StyleSet.insert, StyleSet.empty],
 styleset_lookup_unregistered_absent Unit
   (StyleSet.insert (StyleSet.empty Unit) "heading" (TextStyle.default Unit)) "caption"
   (by simp [StyleSet.names, StyleSet.insert, StyleSet.empty])⟩

theorem optionBeqF32_refl {o : Option F32} (h : optionNanFree o = true) :
    optionBeq F32.beq o o = true := by
cases o with
| none => rfl
| some a =>
    simp [optionNanFree] at h
    exact F32.beq_refl h

theorem FontVariation.beq_reflexive {v : FontVariation} (h : v.value.isNan = false) :
    FontVariation.beq v v = true := by
simp [FontVariation.beq, F32.beq_refl h]

/-- C10: The default TextStyle construction is deterministic and its result
is self-equal under the derived partial equality: for any brush type whose
equality is reflexive at the brush default, the default TextStyle compares
equal to itself (no float field of the default is NaN). -/
theorem default_textstyle_beq_reflexive (B : Type) [Inhabited B] (beqB : B → B → Bool)
    (h : beqB (Inhabited.default : B) (Inhabited.default : B) = true) :
    TextStyle.beq beqB (TextStyle.default B) (TextStyle.default B) = true := by
simp [TextStyle.beq, TextStyle.default, FontStack.beq, F32.beq, FontWidth.beq,
  FontWidth.default, FontStyle.beq, FontStyle.default, FontWeight.beq,
  FontWeight.default, fontSettingsBeq, listBeq, optionBeq, h]

/-- Witness for C10 at a concrete input: with the unit brush and the constant
true brush comparison, the default TextStyle compares equal to itself. -/
theorem default_textstyle_beq_reflexive_witness :
    ((fun _ _ => true : Unit → Unit → Bool) Inhabited.default Inhabited.default = true) ∧
    TextStyle.beq (fun _ _ => true) (TextStyle.default Unit) (TextStyle.default Unit) = true :=
⟨rfl, default_textstyle_beq_reflexive Unit (fun _ _ => true) rfl⟩

/-- C3 counterexample: the claim "clone(x) compares equal to x for every
StyleProperty x" is false at the concrete input FontSize(NaN): cloning
preserves the NaN payload and f32 partial equality makes it unequal to
itself, so the derived structural equality returns false. -/
theorem styleproperty_clone_eq_fails_at_nan :
    StyleProperty.beq (fun _ _ => true)
      (StyleProperty.clone (StyleProperty.fontSize F32.nan : StyleProperty Unit))
      (StyleProperty.fontSize F32.nan) = false := rfl

theorem StyleProperty.clone_eq_self {B : Type} (x : StyleProperty B) :
    StyleProperty.clone x = x := by
cases x <;> rfl

theorem StyleProperty.beq_self_eq_payloadBeq {B : Type} (beqB : B → B → Bool)
    (x : StyleProperty B) :
    StyleProperty.beq beqB x x = StyleProperty.payloadBeq beqB x x := by
simp [StyleProperty.beq]

/-- C3 amended: equality and cloning of StyleProperty are structural; for
every StyleProperty x none of whose float payload components is NaN (and any
brush comparison reflexive on payloads), clone(x) compares equal to x, and
two StyleProperty values compare equal if and only if they carry the same
variant tag and componentwise-equal payloads. -/
theorem styleproperty_structural_eq (B : Type) (beqB : B → B → Bool)
    (hB : ∀ b, beqB b b = true) (x : StyleProperty B) (hx : x.nanFree = true) :
    StyleProperty.beq beqB (StyleProperty.clone x) x = true ∧
    ∀ y : StyleProperty B, (StyleProperty.beq beqB x y = true ↔
      (StyleProperty.tag x = StyleProperty.tag y ∧
        StyleProperty.payloadBeq beqB x y = true)) := by
refine ⟨?_, fun y => by simp [StyleProperty.beq]⟩
rw [StyleProperty.clone_eq_self, StyleProperty.beq_self_eq_payloadBeq]
cases x with
| fontStack v =>
    show FontStack.beq v v = true
    simp [FontStack.beq]
| fontSize v =>
    simp [StyleProperty.nanFree] at hx
    show F32.beq v v = true
    exact F32.beq_refl hx
| fontWidth w =>
    simp [StyleProperty.nanFree] at hx
    show FontWidth.beq w w = true
    exact F32.beq_refl hx
| fontStyle st =>
    show FontStyle.beq st st = true
    cases st with
    | normal => rfl
    | italic => rfl
    | oblique o =>
        cases o with
        | none => rfl
        | some a =>
            simp [StyleProperty.nanFree] at hx
            show F32.beq a a = true
            exact F32.beq_refl hx
| fontWeight w =>
    simp [StyleProperty.nanFree] at hx
    show FontWeight.beq w w = true
    exact F32.beq_refl hx
| fontVariations fs =>
    show fontSettingsBeq FontVariation.beq fs fs = true
    cases fs with
    | source s => simp [fontSettingsBeq]
    | list l =>
        simp [StyleProperty.nanFree, List.all_eq_true] at hx
        show listBeq FontVariation.beq l l = true
        exact listBeq_refl (fun a ha => FontVariation.beq_reflexive (hx a ha))
| fontFeatures fs =>
    show fontSettingsBeq FontFeature.beq fs fs = true
    cases fs with
    | source s => simp [fontSettingsBeq]
    | list l =>
        show listBeq FontFeature.beq l l = true
        exact listBeq_refl (fun a _ => by simp [FontFeature.beq])
| locale o =>
    show optionBeq (fun x y => decide (x = y)) o o = true
    exact optionBeq_refl (fun a _ => by simp)
| brush b =>
    show beqB b b = true
    exact hB b
| underline b =>
    show (b == b) = true
    simp
| underlineOffset o =>
    simp only [StyleProperty.nanFree] at hx
    show optionBeq F32.beq o o = true
    exact optionBeqF32_refl hx
| underlineSize o =>
    simp only [StyleProperty.nanFree] at hx
    show optionBeq F32.beq o o = true
    exact optionBeqF32_refl hx
| underlineBrush o =>
    show optionBeq beqB o o = true
    exact optionBeq_refl (fun a _ => hB a)
| strikethrough b =>
    show (b == b) = true
    simp
| strikethroughOffset o =>
    simp only [StyleProperty.nanFree] at hx
    show optionBeq F32.beq o o = true
    exact optionBeqF32_refl hx
| strikethroughSize o =>
    simp only [StyleProperty.nanFree] at hx
    show optionBeq F32.beq o o = true
    exact optionBeqF32_refl hx
| strikethroughBrush o =>
    show optionBeq beqB o o = true
    exact optionBeq_refl (fun a _ => hB a)
| lineHeight v =>
    simp [StyleProperty.nanFree] at hx
    show F32.beq v v = true
    exact F32.beq_refl hx
| wordSpacing v =>
    simp [StyleProperty.nanFree] at hx
    show F32.beq v v = true
    exact F32.beq_refl hx
| letterSpacing v =>
    simp [StyleProperty.nanFree] at hx
    show F32.beq v v = true
    exact F32.beq_refl hx
| wordBreak v =>
    show decide (v = v) = true
    simp
| overflowWrap v =>
    show decide (v = v) = true
    simp

/-- Witness for C3 amended at a concrete input: FontSize(16.0) is NaN-free
and its clone compares equal to it under the derived structural equality. -/
theorem styleproperty_structural_eq_witness :
    ((StyleProperty.fontSize (F32.val 16) : StyleProperty Unit).nanFree = true) ∧
    StyleProperty.beq (fun _ _ => true)
      (StyleProperty.clone (StyleProperty.fontSize (F32.val 16) : StyleProperty Unit))
      (StyleProperty.fontSize (F32.val 16)) = true :=
⟨by decide,
 (styleproperty_structural_eq Unit (fun _ _ => true) (fun _ => rfl)
   (StyleProperty.fontSize (F32.val 16)) (by decide)).1⟩

/-- Witness for C1 at a concrete brush type: the default TextStyle over the
unit brush has the "sans-serif" source font stack. -/
theorem default_textstyle_values_witness :
    (TextStyle.default Unit).font_stack = FontStack.source "sans-serif" :=
(default_textstyle_values Unit).1

/-- Witness for C2 at a concrete input: applying FontSize(10.0) to the
default TextStyle sets the font-size field and leaves all other fields
unchanged. -/
theorem apply_property_single_field_witness :
    payloadSet (StyleProperty.fontSize (F32.val 10) : StyleProperty Unit)
      ((TextStyle.default Unit).applyProperty (StyleProperty.fontSize (F32.val 10))) ∧
    agreesExcept (StyleProperty.fontSize (F32.val 10) : StyleProperty Unit).tag
      (TextStyle.default Unit)
      ((TextStyle.default Unit).applyProperty (StyleProperty.fontSize (F32.val 10))) :=
apply_property_single_field Unit (TextStyle.default Unit)
  (StyleProperty.fontSize (F32.val 10))

/-- Witness for C6 at a concrete input: converting a two-family slice keeps
both families in order. -/
theorem from_families_preserves_order_witness :
    (stylePropertyOfFamilies
        [FontFamily.named "Arial", FontFamily.generic GenericFamily.serif] :
      StyleProperty Unit).asFontStack =
      some (FontStack.list
        [FontFamily.named "Arial", FontFamily.generic GenericFamily.serif]) :=
(from_families_preserves_order Unit
  [FontFamily.named "Arial", FontFamily.generic GenericFamily.serif]).2.1

/-- Witness for C7 at a concrete input: converting the single family "Arial"
yields the one-entry stack holding it. -/
theorem from_single_family_singleton_stack_witness :
    (stylePropertyOfFamily (FontFamily.named "Arial") : StyleProperty Unit).asFontStack =
      some (FontStack.list [FontFamily.named "Arial"]) :=
(from_single_family_singleton_stack Unit (FontFamily.named "Arial")).2.1

/-- Witness for C8 at a concrete input: the sans-serif generic stack is
unequal to the stack of the single named family "Arial". -/
theorem from_generic_family_distinguishable_witness :
    fontStackOfGeneric GenericFamily.sansSerif ≠
      FontStack.list [FontFamily.named "Arial"] :=
(from_generic_family_distinguishable Unit GenericFamily.sansSerif).2
  [FontFamily.named "Arial"]
  (by
    intro f hf
    simp at hf
    exact ⟨"Arial", hf⟩)

end Parley
